import Mathlib

/-!
Verification of the go-assuan protocol library.

Byte strings of the Go source are modelled as `List Nat` (each element one
byte).  Pure functions of the source are translated into Lean functions;
the stateful dispatcher and session loops are translated into recursive
functions over the list of incoming lines, returning the written output and
the final result.  Functions of the repository that live in files missing
from the source tree (the escaping codec, the `common.Error` value and the
`common.Pipe` wire helpers) are modelled from the specification, as marked
in their doc comments.
-/

namespace Assuan

/-- Byte values of a Lean string, for writing concrete byte strings. -/
def strB (s : String) : List Nat :=
  s.data.map Char.toNat

/-- Modelled from the spec: hex digit decoding used by `unescapeParameters`
(the escaping codec source file is not in the tree; §4.1 of the spec and
`src/common/escape_test.go` fix its behaviour).  Decodes an ASCII hex digit
byte to its value, `none` for a non-hex byte. -/
def hexVal (b : Nat) : Option Nat :=
  if 48 ≤ b ∧ b ≤ 57 then some (b - 48)
  else if 65 ≤ b ∧ b ≤ 70 then some (b - 55)
  else if 97 ≤ b ∧ b ≤ 102 then some (b - 87)
  else none

/-- Upper-case ASCII hex digit for a value below 16. -/
def hexUp (v : Nat) : Nat :=
  if v < 10 then 48 + v else 55 + v

/-- Modelled from the spec: escaping of one byte (§4.1, §6): CR, LF, `%`
and `\` (bytes 13, 10, 37, 92) become `%` followed by two upper-case hex
digits; every other byte passes through unchanged. -/
def escByte (b : Nat) : List Nat :=
  if b = 13 ∨ b = 10 ∨ b = 37 ∨ b = 92 then [37, hexUp (b / 16), hexUp (b % 16)]
  else [b]

/-- Modelled from the spec: `escapeParameters` (§4.1), byte-wise percent
escaping of a parameter string. -/
def escapeParameters (s : List Nat) : List Nat :=
  (s.map escByte).flatten

/-- Modelled from the spec: `unescapeParameters` (§4.1): a `%` must be
followed by two hex digits and decodes to the corresponding byte, any other
byte passes through; a `%` not followed by two hex digits is a decode
failure (`none`).  `+` receives no special treatment. -/
def unescapeParameters : List Nat → Option (List Nat)
  | [] => some []
  | b :: rest =>
    if b = 37 then
      match rest with
      | d1 :: d2 :: rest' =>
        match hexVal d1, hexVal d2 with
        | some h1, some h2 => (unescapeParameters rest').map (fun t => (16 * h1 + h2) :: t)
        | _, _ => none
      | _ => none
    else (unescapeParameters rest).map (fun t => b :: t)

/-- Spec-side predicate, following the words of the claim: position `i` of
`s` holds a `%` that is not followed by two valid hex digits (including a
lone trailing `%`). -/
def badPercentAt (s : List Nat) (i : Nat) : Prop :=
  s[i]? = some 37 ∧
    ¬ ∃ d1 d2, s[i + 1]? = some d1 ∧ s[i + 2]? = some d2 ∧
      (hexVal d1).isSome = true ∧ (hexVal d2).isSome = true

/-- MaxLineLen of src/common/context.go: maximum length of a protocol
line, including the space after the command and the line feed. -/
def MaxLineLen : Nat := 1000

/-- ASCII upper-casing of one byte, as strings.ToUpper acts on the ASCII
command verbs used by the protocol. -/
def upperByte (b : Nat) : Nat :=
  if 97 ≤ b ∧ b ≤ 122 then b - 32 else b

def upperB (l : List Nat) : List Nat :=
  l.map upperByte

/-- The single line built by Context.WriteLine (src/common/context.go):
upper-cased command, one space, escaped parameters, line feed. -/
def encodedLine (cmd params : List Nat) : List Nat :=
  upperB cmd ++ [32] ++ escapeParameters params ++ [10]

/-- Translation of Context.WriteLine (src/common/context.go): the length
check `len(cmd)+len(params)+2 > MaxLineLen` runs before anything is
written (an `.error` result writes no bytes); otherwise the single encoded
line is written to the pipe. -/
def writeLine (cmd params : List Nat) : Except String (List Nat) :=
  if cmd.length + params.length + 2 > MaxLineLen then
    .error "too long command or parameters"
  else .ok (encodedLine cmd params)

/-- A line skipped by Context.ReadLine (src/common/context.go): a comment
(first byte `#`), status information (prefix `S` space) or a line that is
all whitespace (strings.TrimSpace leaves nothing; ASCII whitespace). -/
def junkLine (l : List Nat) : Prop :=
  l.head? = some 35 ∨ l.take 2 = [83, 32] ∨ ∀ b ∈ l, b ∈ [9, 10, 11, 12, 13, 32]

instance junkLineDec (l : List Nat) : Decidable (junkLine l) := by
  unfold junkLine
  exact inferInstance

/-- Result of Context.ReadLine: a command with parameters and the rest of
the stream, or a failed read (unescaping error).  Go's `(cmd, params,
err)` triple maps to `.ok cmd params` for `err = nil` and `.fail` for a
non-nil error. -/
inductive ReadLineRes where
  | ok (cmd params : List Nat) (rest : List (List Nat))
  | fail (rest : List (List Nat))
deriving DecidableEq

/-- Parsing of one genuine line by Context.ReadLine: split at the first
space; the command part is upper-cased; the parameter part is unescaped
and a decode failure fails the read. -/
def parseLine (l : List Nat) (rest : List (List Nat)) : ReadLineRes :=
  if (l.takeWhile (fun b => b != 32)).length = l.length then .ok (upperB l) [] rest
  else
    match unescapeParameters (l.drop ((l.takeWhile (fun b => b != 32)).length + 1)) with
    | some p => .ok (upperB (l.takeWhile (fun b => b != 32))) p rest
    | none => .fail rest

/-- Translation of Context.ReadLine (src/common/context.go) over the
stream of scanner lines (line terminators already stripped): comment,
status and blank lines are skipped; at end of stream `scanner.Scan()`
returns false and `scanner.Err()` is nil (bufio treats a clean EOF as no
error), so the function returns empty command, empty parameters and a nil
error — the `.ok [] [] []` result. -/
def readLine (s : List (List Nat)) : ReadLineRes :=
  match s.dropWhile (fun l => decide (junkLine l)) with
  | [] => .ok [] [] []
  | l :: rest => parseLine l rest

/-- Byte values of the verbs compared against in client/session.go. -/
def bOK : List Nat := [79, 75]

def bERR : List Nat := [69, 82, 82]

def bD : List Nat := [68]

def bINQUIRE : List Nat := [73, 78, 81, 85, 73, 82, 69]

/-- Result of Session.SimpleCmd (src/client/session.go): data on OK, the
ERR parameters on an ERR response, a failed read, or — when the stream is
exhausted, where Context.ReadLine keeps producing the nil-error empty
result — the loop never returns, modelled as `.hang`. -/
inductive SRes where
  | done (data : List Nat)
  | remoteErr (params : List Nat)
  | readFail
  | hang
deriving DecidableEq

/-- Translation of the response loop of Session.SimpleCmd
(src/client/session.go): read lines until OK (return accumulated data) or
ERR (fail with the decoded error, carried here as the raw ERR parameters);
a D line appends its already-unescaped parameter bytes to the accumulator;
any other verb is ignored.  The line skipping of Context.ReadLine is
inlined (one skipped input line per iteration). -/
def simpleCmdLoop : List (List Nat) → List Nat → SRes
  | [], _ => .hang
  | l :: rest, acc =>
    if junkLine l then simpleCmdLoop rest acc
    else
      match parseLine l rest with
      | .fail _ => .readFail
      | .ok cmd params _ =>
        if cmd = bOK then .done acc
        else if cmd = bERR then .remoteErr params
        else if cmd = bD then simpleCmdLoop rest (acc ++ params)
        else simpleCmdLoop rest acc

/-- Session.SimpleCmd in full: the command line is written (subject to the
WriteLine length check), then the response loop runs. -/
def simpleCmd (cmd params : List Nat) (stream : List (List Nat)) :
    Except String (List Nat × SRes) :=
  (writeLine cmd params).map (fun line => (line, simpleCmdLoop stream []))

/-- Result of Session.Transact (src/client/session.go): like SimpleCmd,
plus `.missing k` for an INQUIRE whose keyword `k` has no entry in the
caller's answer map ("missing data with keyword ..."). -/
inductive TRes where
  | done (rdata : List Nat)
  | remoteErr (params : List Nat)
  | missing (keyword : List Nat)
  | readFail
  | hang
deriving DecidableEq

/-- Go map lookup for the byte-string answer map of Transact, modelled as
an association list. -/
def lookupA : List (List Nat × List Nat) → List Nat → Option (List Nat)
  | [], _ => none
  | (k', v) :: rest, k => if k' = k then some v else lookupA rest k

/-- Chunking of the escaped payload by Context.WriteData
(src/common/context.go): chunks of MaxLineLen - 3 = 997 bytes. -/
def chunks997 : List Nat → List (List Nat)
  | [] => []
  | b :: rest => ((b :: rest).take 997) :: chunks997 ((b :: rest).drop 997)
termination_by l => l.length
decreasing_by
  simp [List.length_drop]
  omega

/-- Translation of Context.WriteData: the escaped payload is split into
chunks, each sent as a line `D ` chunk line-feed; empty input emits no
lines. -/
def writeData (input : List Nat) : List (List Nat) :=
  (chunks997 (escapeParameters input)).map (fun c => 68 :: 32 :: (c ++ [10]))

/-- Translation of the response loop of Session.Transact
(src/client/session.go).  Returns the lines written during the loop (CAN
on an unanswerable INQUIRE; data lines and an END line on an answered one)
together with the result.  OK/ERR/D are handled as in SimpleCmd. -/
def transactLoop (ans : List (List Nat × List Nat)) :
    List (List Nat) → List Nat → List (List Nat) × TRes
  | [], _ => ([], .hang)
  | l :: rest, acc =>
    if junkLine l then transactLoop ans rest acc
    else
      match parseLine l rest with
      | .fail _ => ([], .readFail)
      | .ok cmd params _ =>
        if cmd = bINQUIRE then
          match lookupA ans params with
          | none => ([encodedLine [67, 65, 78] []], .missing params)
          | some v =>
            let cont := transactLoop ans rest acc
            (writeData v ++ encodedLine [69, 78, 68] [] :: cont.1, cont.2)
        else if cmd = bOK then ([], .done acc)
        else if cmd = bERR then ([], .remoteErr params)
        else if cmd = bD then transactLoop ans rest (acc ++ params)
        else transactLoop ans rest acc

/-- Raw wire line carrying a D chunk, as the peer would send it (line
terminator already stripped by the scanner). -/
def dRaw (p : List Nat) : List Nat := 68 :: 32 :: escapeParameters p

/-- Raw wire line `OK` with no parameters. -/
def okRaw : List Nat := [79, 75]

/-- Raw wire line `ERR ` followed by escaped error parameters. -/
def errRaw (e : List Nat) : List Nat := 69 :: 82 :: 82 :: 32 :: escapeParameters e

/-- Raw wire line `INQUIRE ` followed by the escaped keyword. -/
def inqRaw (k : List Nat) : List Nat :=
  [73, 78, 81, 85, 73, 82, 69, 32] ++ escapeParameters k

/-- Modelled from the spec: the structured error value of the error model
(§3; the errors source file is not in the tree): origin, numeric code,
source name and message.  Two errors are equal iff all four fields match. -/
structure ErrorV where
  src : Nat
  code : Nat
  srcName : String
  message : String
deriving DecidableEq

/-- Modelled from the spec: the error values built by the dispatcher in
src/server/server.go; the numeric registry values are not in the tree, so
representative distinct codes are used (only identity matters here). -/
def unknownCmdErr : ErrorV := ⟨1, 275, "assuan", "unknown IPC command"⟩

def invOptionErr : ErrorV := ⟨1, 261, "assuan", "invalid OPTION syntax"⟩

def notImplErr : ErrorV := ⟨1, 69, "assuan", "not implemented"⟩

def notFoundErr : ErrorV := ⟨1, 17, "assuan", "not found"⟩

/-- Handler type of src/server/server.go: a handler receives the opaque
connection-state value and the parameter string and may report a protocol
error.  A Go handler mutates the struct behind the state pointer; this is
modelled by returning the updated state contents.  (Handlers may also
write data lines through the pipe; no claim here depends on that.) -/
def CommandHandler (σ : Type) :=
  Option σ → String → Option σ × Option ErrorV

/-- ProtoInfo of src/server/server.go.  Go maps are modelled as
association lists (the claims depend only on presence and lookup). -/
structure ProtoInfo (σ : Type) where
  greeting : String
  handlers : List (String × CommandHandler σ)
  help : List (String × List String)
  getDefaultState : Unit → Option σ
  setOption : Option (Option σ → String → String → Option σ × Option ErrorV)

/-- Dispatcher output events: WriteLine, WriteError (the serialized ERR
line carrying a structured error; the Pipe serialization itself is not in
the tree and is modelled from the spec), and WriteComment. -/
inductive OutLine where
  | line (cmd params : String)
  | errorLine (e : ErrorV)
  | comment (text : String)
deriving DecidableEq

/-- How Serve's loop ends.  `.readErr` stands for Pipe.ReadLine failing
(EOF after the peer closes, or an I/O error) and Serve returning that
error; `.normal` (a nil return) is part of the result type but the
translated loop never produces it. -/
inductive ServeExit where
  | readErr
  | normal
deriving DecidableEq

/-- Word characters of the option regexp `^([\d\w\-]+)(?:[ =](.*))?$` in
src/server/server.go: digits, letters, underscore, hyphen. -/
def isWordChar (c : Char) : Bool :=
  c.isAlphanum || c = '_' || c = '-'

/-- Translation of splitOption (src/server/server.go): the key is a
non-empty maximal run of word characters; it may be followed by a space or
`=` and the value (possibly empty); anything else fails with the invalid
OPTION syntax error path. -/
def splitOption (params : String) : Option (String × String) :=
  match params.toList.takeWhile isWordChar, params.toList.dropWhile isWordChar with
  | [], _ => none
  | key, [] => some (String.mk key, "")
  | key, c :: cs =>
    if c = ' ' ∨ c = '=' then some (String.mk key, String.mk cs) else none

/-- Go map lookup for string-keyed tables, as an association list. -/
def lookupS {α : Type} : List (String × α) → String → Option α
  | [], _ => none
  | (k', v) :: rest, k => if k' = k then some v else lookupS rest k

/-- The verbs listed by the bare HELP command: the Go source ranges over
an `[8]string` array literal holding seven names, so the zero-valued
eighth element is included. -/
def builtinHelp : List String :=
  ["NOP", "OPTION", "CANCEL", "BYE", "RESET", "END", "HELP", ""]

/-- Dispatcher context: the blueprint and the per-connection state value
(`none` models the nil interface value). -/
structure ServeCtx (σ : Type) where
  proto : ProtoInfo σ
  connState : Option σ

/-- Translation of helpCmd (src/server/server.go).  With parameters, the
help table entry is printed as comments followed by OK, or a not-found
error is reported; without parameters, the built-in names and the
registered verbs are printed (handler-table iteration order modelled as
list order) followed by OK. -/
def helpOut {σ : Type} (proto : ProtoInfo σ) (params : String) : List OutLine :=
  if params ≠ "" then
    match lookupS proto.help params with
    | none => [.errorLine notFoundErr]
    | some strs => strs.map OutLine.comment ++ [.line "OK" ""]
  else
    builtinHelp.map OutLine.comment ++
      proto.handlers.map (fun kv => OutLine.comment kv.1) ++ [.line "OK" ""]

/-- Translation of resetCmd (src/server/server.go): a registered RESET
handler is invoked as a normal handler; otherwise the connection state is
replaced by nil and OK is written. -/
def resetOut {σ : Type} (ctx : ServeCtx σ) : ServeCtx σ × List OutLine :=
  match lookupS ctx.proto.handlers "RESET" with
  | some h =>
    match h ctx.connState "" with
    | (st', some e) => (⟨ctx.proto, st'⟩, [.errorLine e])
    | (st', none) => (⟨ctx.proto, st'⟩, [.line "OK" ""])
  | none => (⟨ctx.proto, none⟩, [.line "OK" ""])

/-- Translation of optionCmd (src/server/server.go): without an option
setter a not-implemented error is reported; with one, the parameters are
split and the setter invoked.  The source has no early return after
`pipe.WriteError(*err)`, so when the setter reports an error the ERR line
is followed by the OK line. -/
def optionOut {σ : Type} (ctx : ServeCtx σ) (params : String) : ServeCtx σ × List OutLine :=
  match ctx.proto.setOption with
  | none => (ctx, [.errorLine notImplErr])
  | some setter =>
    match splitOption params with
    | none => (ctx, [.errorLine invOptionErr])
    | some (k, v) =>
      match setter ctx.connState k v with
      | (st', some e) => (⟨ctx.proto, st'⟩, [.errorLine e, .line "OK" ""])
      | (st', none) => (⟨ctx.proto, st'⟩, [.line "OK" ""])

/-- Translation of one iteration of the switch in Serve
(src/server/server.go): BYE and NOP answer OK (the loop is not left),
RESET, OPTION and HELP go to their helpers, any other verb is looked up in
the handler table — absent verbs get the unknown-command error, present
ones are invoked and OK or their error is written. -/
def stepCtx {σ : Type} (ctx : ServeCtx σ) (cmd params : String) : ServeCtx σ × List OutLine :=
  if cmd = "BYE" then (ctx, [.line "OK" ""])
  else if cmd = "NOP" then (ctx, [.line "OK" ""])
  else if cmd = "RESET" then resetOut ctx
  else if cmd = "OPTION" then optionOut ctx params
  else if cmd = "HELP" then (ctx, helpOut ctx.proto params)
  else
    match lookupS ctx.proto.handlers cmd with
    | none => (ctx, [.errorLine unknownCmdErr])
    | some h =>
      match h ctx.connState params with
      | (st', some e) => (⟨ctx.proto, st'⟩, [.errorLine e])
      | (st', none) => (⟨ctx.proto, st'⟩, [.line "OK" ""])

/-- Translation of the Serve loop (src/server/server.go) over the parsed
command lines of the connection.  When the input is exhausted the next
Pipe.ReadLine fails (EOF; the Pipe reader is not in the tree, modelled
from the spec) and Serve returns that error: `.readErr`. -/
def serveLoopCtx {σ : Type} : ServeCtx σ → List (String × String) → ServeCtx σ × List OutLine × ServeExit
  | ctx, [] => (ctx, [], .readErr)
  | ctx, (c, p) :: rest =>
    match stepCtx ctx c p with
    | (ctx', out) =>
      match serveLoopCtx ctx' rest with
      | (ctx'', outs, ex) => (ctx'', out ++ outs, ex)

/-- Serve in full (src/server/server.go): the greeting OK line is written,
then the loop runs from the state produced by the state factory. -/
def serve {σ : Type} (proto : ProtoInfo σ) (cmds : List (String × String)) :
    List OutLine × ServeExit :=
  match serveLoopCtx ⟨proto, proto.getDefaultState ()⟩ cmds with
  | (_, outs, ex) => (OutLine.line "OK" proto.greeting :: outs, ex)

/-- Concrete blueprint with no handlers, for counterexamples. -/
def protoTest : ProtoInfo Unit :=
  ⟨"greeting", [], [], fun _ => some (), none⟩

def ctxTest : ServeCtx Unit :=
  ⟨protoTest, some ()⟩

/-- Concrete error value for counterexamples. -/
def testErr : ErrorV := ⟨7, 42, "test", "test failure"⟩

/-- Concrete blueprint whose option setter always reports `testErr`. -/
def protoOpt : ProtoInfo Unit :=
  ⟨"greeting", [], [], fun _ => some (), some (fun st _ _ => (st, some testErr))⟩

theorem unesc_nil : unescapeParameters [] = some [] := rfl

theorem unesc_cons_ne {b : Nat} (hb : ¬ b = 37) (rest : List Nat) :
    unescapeParameters (b :: rest) = (unescapeParameters rest).map (fun t => b :: t) := by
  rw [unescapeParameters.eq_def]
  exact if_neg hb

theorem unesc_cons_37 (rest : List Nat) :
    unescapeParameters (37 :: rest) =
      match rest with
      | d1 :: d2 :: rest' =>
        match hexVal d1, hexVal d2 with
        | some h1, some h2 => (unescapeParameters rest').map (fun t => (16 * h1 + h2) :: t)
        | _, _ => none
      | _ => none := by
  rw [unescapeParameters.eq_def]
  exact if_pos rfl

/-- Helper: escaping a single byte and unescaping gives back that byte in
front of the continuation. -/
theorem unescape_escByte (b : Nat) (t : List Nat) :
    unescapeParameters (escByte b ++ t) = (unescapeParameters t).map (fun r => b :: r) := by
  by_cases h : b = 13 ∨ b = 10 ∨ b = 37 ∨ b = 92
  · rcases h with h | h | h | h <;> subst h <;>
      simp [escByte, unesc_cons_37, hexVal, hexUp]
  · push_neg at h
    obtain ⟨h13, h10, h37, h92⟩ := h
    simp only [escByte, if_neg (by tauto : ¬ (b = 13 ∨ b = 10 ∨ b = 37 ∨ b = 92))]
    simp [unesc_cons_ne h37]

/-- Helper shared by several claims: unescaping inverts escaping on every
byte sequence. -/
theorem unescape_escape (x : List Nat) :
    unescapeParameters (escapeParameters x) = some x := by
  induction x with
  | nil => rfl
  | cons b rest ih =>
    have : escapeParameters (b :: rest) = escByte b ++ escapeParameters rest := by
      simp [escapeParameters]
    rw [this, unescape_escByte, ih]
    rfl

/-- C1: for every byte sequence `x`, `unescapeParameters (escapeParameters x)`
succeeds and returns exactly `x`: escaping followed by unescaping is the
identity on arbitrary binary input, including non-printable bytes. -/
theorem escape_roundtrip_id (x : List Nat) :
    unescapeParameters (escapeParameters x) = some x :=
  unescape_escape x

theorem badAt_cons_succ (b : Nat) (s : List Nat) (i : Nat) :
    badPercentAt (b :: s) (i + 1) ↔ badPercentAt s i := by
  simp [badPercentAt]

theorem exists_badAt_cons {b : Nat} (hb : ¬ b = 37) (s : List Nat) :
    (∃ i, badPercentAt (b :: s) i) ↔ ∃ i, badPercentAt s i := by
  constructor
  · rintro ⟨i, hi⟩
    cases i with
    | zero =>
      exfalso
      have h0 : b = 37 := by simpa using hi.1
      exact hb h0
    | succ j => exact ⟨j, (badAt_cons_succ b s j).1 hi⟩
  · rintro ⟨i, hi⟩
    exact ⟨i + 1, (badAt_cons_succ b s i).2 hi⟩

/-- Helper shared with the claim theorems: `unescapeParameters` fails
exactly on strings containing a `%` not followed by two hex digits. -/
theorem unescape_none_iff_badPercent (s : List Nat) :
    unescapeParameters s = none ↔ ∃ i, badPercentAt s i := by
  induction s using unescapeParameters.induct with
  | case1 => simp [unescapeParameters, badPercentAt]
  | case2 d1 d2 rest' h1 h2 hx2 hx1 ih =>
    rw [unesc_cons_37]
    simp only [hx1, hx2, Option.map_eq_none', ih]
    constructor
    · rintro ⟨i, hi⟩
      refine ⟨i + 3, ?_⟩
      have h3 : i + 3 = i + 1 + 1 + 1 := by omega
      rw [h3, badAt_cons_succ, badAt_cons_succ, badAt_cons_succ]
      exact hi
    · rintro ⟨i, hi⟩
      cases i with
      | zero =>
        exfalso
        exact hi.2 ⟨d1, d2, by simp, by simp, by simp [hx1], by simp [hx2]⟩
      | succ i1 =>
        cases i1 with
        | zero =>
          exfalso
          have hd : d1 = 37 := by simpa using hi.1
          subst hd
          simp [hexVal] at hx1
        | succ i2 =>
          cases i2 with
          | zero =>
            exfalso
            have hd : d2 = 37 := by simpa using hi.1
            subst hd
            simp [hexVal] at hx2
          | succ j =>
            refine ⟨j, ?_⟩
            rw [badAt_cons_succ, badAt_cons_succ, badAt_cons_succ] at hi
            exact hi
  | case3 d1 d2 rest' hbad =>
    rw [unesc_cons_37]
    constructor
    · intro _
      refine ⟨0, by simp, ?_⟩
      rintro ⟨e1, e2, he1, he2, hs1, hs2⟩
      have he1' : d1 = e1 := by simpa using he1
      have he2' : d2 = e2 := by simpa using he2
      subst he1'; subst he2'
      obtain ⟨h1, hh1⟩ := Option.isSome_iff_exists.1 hs1
      obtain ⟨h2, hh2⟩ := Option.isSome_iff_exists.1 hs2
      exact hbad h1 h2 hh1 hh2
    · intro _
      rcases hd1 : hexVal d1 with _ | h1 <;> rcases hd2 : hexVal d2 with _ | h2
      · simp [hd1, hd2]
      · simp [hd1, hd2]
      · simp [hd1, hd2]
      · exact (hbad h1 h2 hd1 hd2).elim
  | case4 rest hshort =>
    rcases rest with _ | ⟨d, _ | ⟨d2, r⟩⟩
    · constructor
      · intro _
        exact ⟨0, by simp, by rintro ⟨e1, e2, he1, _⟩; simp at he1⟩
      · intro _
        rfl
    · constructor
      · intro _
        exact ⟨0, by simp, by rintro ⟨e1, e2, _, he2, _⟩; simp at he2⟩
      · intro _
        rfl
    · exact absurd rfl (hshort d d2 r)
  | case5 b rest hb ih =>
    rw [unesc_cons_ne hb]
    simp only [Option.map_eq_none', ih]
    exact (exists_badAt_cons hb rest).symm

/-- Sanity check tying the byte constants to the verb strings of the Go
source. -/
theorem verbBytes_eq :
    bOK = strB "OK" ∧ bERR = strB "ERR" ∧ bD = strB "D" ∧ bINQUIRE = strB "INQUIRE" := by
  decide

/-- Sanity check tying the raw-line byte prefixes to their strings. -/
theorem rawBytes_eq :
    strB "D " = [68, 32] ∧ strB "CAN" = [67, 65, 78] ∧ strB "END" = [69, 78, 68] ∧
      strB "INQUIRE " = [73, 78, 81, 85, 73, 82, 69, 32] ∧ strB "ERR " = [69, 82, 82, 32] := by
  decide

/-- Escaping a run of `%` bytes triples its length. -/
theorem esc_replicate_37_len (n : Nat) :
    (escapeParameters (List.replicate n 37)).length = 3 * n := by
  induction n with
  | zero => rfl
  | succ k ih =>
    rw [List.replicate_succ]
    have h : escapeParameters (37 :: List.replicate k 37) =
        escByte 37 ++ escapeParameters (List.replicate k 37) := by
      simp [escapeParameters]
    rw [h, List.length_append, ih]
    simp [escByte]
    omega

/-- C2 (amended): Context.WriteLine rejects, without writing any bytes,
exactly when the pre-escaping length `len(cmd) + len(params) + 2` exceeds
MaxLineLen; when that check passes the escaped encoded line is written —
whose length can exceed MaxLineLen when escaping expands the parameters. -/
theorem writeLine_raw_length_check (cmd params : List Nat) :
    (cmd.length + params.length + 2 > MaxLineLen →
      writeLine cmd params = Except.error "too long command or parameters") ∧
    (cmd.length + params.length + 2 ≤ MaxLineLen →
      writeLine cmd params = Except.ok (encodedLine cmd params)) := by
  constructor
  · intro h
    rw [writeLine, if_pos h]
  · intro h
    rw [writeLine, if_neg (by omega)]

/-- Witness for C2's amended claim at concrete inputs: an overlong raw
command is rejected, a short NOP line is written in encoded form. -/
theorem writeLine_raw_length_check_witness :
    writeLine (List.replicate 1100 65) [] = Except.error "too long command or parameters" ∧
    writeLine [78, 79, 80] [] = Except.ok (encodedLine [78, 79, 80] []) :=
  ⟨(writeLine_raw_length_check _ _).1
      (by simp only [List.length_replicate, List.length_nil, MaxLineLen]; omega),
   (writeLine_raw_length_check _ _).2
      (by simp only [List.length_cons, List.length_nil, MaxLineLen]; omega)⟩

/-- C2 counterexample: for the command `A` with 400 `%` parameter bytes
the raw length 403 passes the check, so WriteLine writes the line — yet
the encoded line is 1203 bytes long, exceeding MaxLineLen; the claim that
lines whose encoded length exceeds the maximum are rejected before any
byte is written is false on this input. -/
theorem writeLine_encoded_overflow :
    writeLine [65] (List.replicate 400 37) =
      Except.ok (encodedLine [65] (List.replicate 400 37)) ∧
    (encodedLine [65] (List.replicate 400 37)).length > MaxLineLen := by
  constructor
  · rw [writeLine,
      if_neg (by simp only [List.length_replicate, List.length_cons, List.length_nil,
        MaxLineLen]; omega)]
  · have h := esc_replicate_37_len 400
    simp only [encodedLine, List.length_append, upperB, List.length_map, h,
      List.length_cons, List.length_nil, MaxLineLen]
    omega

/-- C8: Context.ReadLine evaluated at the failing input, an already-closed
(empty) stream: `scanner.Scan()` is false and `scanner.Err()` is nil
because bufio discards a clean EOF, so the function returns empty command,
empty parameters and a nil error — the same success constructor as the
genuine read of a `NOP` line, not an EOF-class failure. -/
theorem readLine_eof_nil :
    readLine [] = ReadLineRes.ok [] [] [] ∧
    readLine [[78, 79, 80]] = ReadLineRes.ok [78, 79, 80] [] [] := by
  constructor
  · rfl
  · rfl

theorem takeWhile_ne32_append (c x : List Nat) (hc : ∀ b ∈ c, b ≠ 32) :
    (c ++ 32 :: x).takeWhile (fun b => b != 32) = c := by
  induction c with
  | nil => simp
  | cons b cs ih =>
    have hb : b ≠ 32 := hc b (by simp)
    have hcs : ∀ b ∈ cs, b ≠ 32 := fun b hb' => hc b (by simp [hb'])
    simp [List.takeWhile_cons, hb, ih hcs]

theorem takeWhile_ne32_all (l : List Nat) (hl : ∀ b ∈ l, b ≠ 32) :
    l.takeWhile (fun b => b != 32) = l := by
  induction l with
  | nil => rfl
  | cons b cs ih =>
    have hb : b ≠ 32 := hl b (by simp)
    have hcs : ∀ b ∈ cs, b ≠ 32 := fun b hb' => hl b (by simp [hb'])
    simp [List.takeWhile_cons, hb, ih hcs]

/-- A line of the form verb-bytes, space, escaped parameters parses to the
upper-cased verb and the unescaped parameters. -/
theorem parseLine_verb (c p : List Nat) (rest : List (List Nat)) (hc : ∀ b ∈ c, b ≠ 32) :
    parseLine (c ++ 32 :: escapeParameters p) rest = ReadLineRes.ok (upperB c) p rest := by
  have ht := takeWhile_ne32_append c (escapeParameters p) hc
  unfold parseLine
  rw [ht]
  rw [if_neg (by simp)]
  have hd : (c ++ 32 :: escapeParameters p).drop (c.length + 1) = escapeParameters p := by
    have h1 : c ++ 32 :: escapeParameters p = (c ++ [32]) ++ escapeParameters p := by simp
    have h2 : c.length + 1 = (c ++ [32]).length := by simp
    rw [h1, h2, List.drop_left]
  rw [hd, unescape_escape]

/-- A line with no space parses to the upper-cased whole line with empty
parameters. -/
theorem parseLine_nospace (l : List Nat) (rest : List (List Nat)) (hl : ∀ b ∈ l, b ≠ 32) :
    parseLine l rest = ReadLineRes.ok (upperB l) [] rest := by
  have ht := takeWhile_ne32_all l hl
  unfold parseLine
  rw [ht, if_pos rfl]

/-- A line whose first byte is not `#`, not `S` and not whitespace is not
skipped. -/
theorem not_junkLine_cons (b : Nat) (x : List Nat) (h35 : b ≠ 35) (h83 : b ≠ 83)
    (hsp : b ∉ ([9, 10, 11, 12, 13, 32] : List Nat)) : ¬ junkLine (b :: x) := by
  rintro (h | h | h)
  · simp at h
    exact h35 h
  · rw [List.take_succ_cons] at h
    simp at h
    exact h83 h.1
  · exact hsp (h b (by simp))

theorem simpleCmdLoop_d (p : List Nat) (rest : List (List Nat)) (acc : List Nat) :
    simpleCmdLoop (dRaw p :: rest) acc = simpleCmdLoop rest (acc ++ p) := by
  have hnj : ¬ junkLine (dRaw p) := by
    unfold dRaw
    exact not_junkLine_cons 68 _ (by decide) (by decide) (by decide)
  have hp : parseLine (dRaw p) rest = ReadLineRes.ok (upperB [68]) p rest := by
    have h : dRaw p = [68] ++ 32 :: escapeParameters p := rfl
    rw [h]
    exact parseLine_verb [68] p rest (by decide)
  rw [simpleCmdLoop, if_neg hnj]
  simp [hp, upperB, upperByte, bOK, bERR, bD]

theorem simpleCmdLoop_ok (rest : List (List Nat)) (acc : List Nat) :
    simpleCmdLoop (okRaw :: rest) acc = SRes.done acc := by
  have hnj : ¬ junkLine okRaw := by
    exact not_junkLine_cons 79 _ (by decide) (by decide) (by decide)
  have hp : parseLine okRaw rest = ReadLineRes.ok (upperB [79, 75]) [] rest :=
    parseLine_nospace [79, 75] rest (by decide)
  rw [simpleCmdLoop, if_neg hnj]
  simp [hp, upperB, upperByte, bOK]

theorem simpleCmdLoop_err (e : List Nat) (rest : List (List Nat)) (acc : List Nat) :
    simpleCmdLoop (errRaw e :: rest) acc = SRes.remoteErr e := by
  have hnj : ¬ junkLine (errRaw e) := by
    unfold errRaw
    exact not_junkLine_cons 69 _ (by decide) (by decide) (by decide)
  have hp : parseLine (errRaw e) rest = ReadLineRes.ok (upperB [69, 82, 82]) e rest := by
    have h : errRaw e = [69, 82, 82] ++ 32 :: escapeParameters e := rfl
    rw [h]
    exact parseLine_verb [69, 82, 82] e rest (by decide)
  rw [simpleCmdLoop, if_neg hnj]
  simp [hp, upperB, upperByte, bOK, bERR]

/-- C7: the SimpleCmd response loop accumulates D-line payloads — already
unescaped by ReadLine — in arrival order with no inserted separators, and a
terminal OK returns exactly their plain concatenation appended to the
accumulator; a terminal ERR fails with the decoded error (carried as the
ERR parameters). -/
theorem simpleCmd_data_concat :
    (∀ (ps : List (List Nat)) (acc : List Nat),
      simpleCmdLoop (ps.map dRaw ++ [okRaw]) acc = SRes.done (acc ++ ps.flatten)) ∧
    (∀ (e : List Nat) (rest : List (List Nat)) (acc : List Nat),
      simpleCmdLoop (errRaw e :: rest) acc = SRes.remoteErr e) := by
  constructor
  · intro ps
    induction ps with
    | nil =>
      intro acc
      simp [simpleCmdLoop_ok]
    | cons p ps ih =>
      intro acc
      simp only [List.map_cons, List.cons_append]
      rw [simpleCmdLoop_d, ih]
      simp
  · intro e rest acc
    exact simpleCmdLoop_err e rest acc

theorem transactLoop_inquire_missing (ans : List (List Nat × List Nat)) (k : List Nat)
    (rest : List (List Nat)) (acc : List Nat) (h : lookupA ans k = none) :
    transactLoop ans (inqRaw k :: rest) acc =
      ([encodedLine [67, 65, 78] []], TRes.missing k) := by
  have hnj : ¬ junkLine (inqRaw k) := by
    unfold inqRaw
    exact not_junkLine_cons 73 _ (by decide) (by decide) (by decide)
  have hp : parseLine (inqRaw k) rest =
      ReadLineRes.ok (upperB [73, 78, 81, 85, 73, 82, 69]) k rest := by
    have heq : inqRaw k = [73, 78, 81, 85, 73, 82, 69] ++ 32 :: escapeParameters k := rfl
    rw [heq]
    exact parseLine_verb [73, 78, 81, 85, 73, 82, 69] k rest (by decide)
  rw [transactLoop, if_neg hnj]
  simp [hp, upperB, upperByte, bINQUIRE, h]

theorem transactLoop_inquire_found (ans : List (List Nat × List Nat)) (k v : List Nat)
    (rest : List (List Nat)) (acc : List Nat) (h : lookupA ans k = some v) :
    transactLoop ans (inqRaw k :: rest) acc =
      (writeData v ++ encodedLine [69, 78, 68] [] :: (transactLoop ans rest acc).1,
        (transactLoop ans rest acc).2) := by
  have hnj : ¬ junkLine (inqRaw k) := by
    unfold inqRaw
    exact not_junkLine_cons 73 _ (by decide) (by decide) (by decide)
  have hp : parseLine (inqRaw k) rest =
      ReadLineRes.ok (upperB [73, 78, 81, 85, 73, 82, 69]) k rest := by
    have heq : inqRaw k = [73, 78, 81, 85, 73, 82, 69] ++ 32 :: escapeParameters k := rfl
    rw [heq]
    exact parseLine_verb [73, 78, 81, 85, 73, 82, 69] k rest (by decide)
  rw [transactLoop, if_neg hnj]
  simp [hp, upperB, upperByte, bINQUIRE, h]

theorem transactLoop_ok (ans : List (List Nat × List Nat)) (rest : List (List Nat))
    (acc : List Nat) :
    transactLoop ans (okRaw :: rest) acc = ([], TRes.done acc) := by
  have hnj : ¬ junkLine okRaw := by
    exact not_junkLine_cons 79 _ (by decide) (by decide) (by decide)
  have hp : parseLine okRaw rest = ReadLineRes.ok (upperB [79, 75]) [] rest :=
    parseLine_nospace [79, 75] rest (by decide)
  rw [transactLoop, if_neg hnj]
  simp [hp, upperB, upperByte, bINQUIRE, bOK]

/-- C6: in the Transact response loop, an INQUIRE line whose keyword is
absent from the answer map makes the client write a CAN line and fail the
whole call with the missing-data error; a present keyword makes the client
write the payload as data lines followed by an END line and continue the
loop, completing normally with the accumulated data on the next terminal
OK. -/
theorem transact_inquire :
    (∀ (ans : List (List Nat × List Nat)) (k : List Nat) (rest : List (List Nat))
        (acc : List Nat), lookupA ans k = none →
      transactLoop ans (inqRaw k :: rest) acc =
        ([encodedLine [67, 65, 78] []], TRes.missing k)) ∧
    (∀ (ans : List (List Nat × List Nat)) (k v : List Nat) (rest : List (List Nat))
        (acc : List Nat), lookupA ans k = some v →
      transactLoop ans (inqRaw k :: rest) acc =
        (writeData v ++ encodedLine [69, 78, 68] [] :: (transactLoop ans rest acc).1,
          (transactLoop ans rest acc).2)) ∧
    (∀ (ans : List (List Nat × List Nat)) (k v : List Nat) (rest : List (List Nat))
        (acc : List Nat), lookupA ans k = some v →
      transactLoop ans (inqRaw k :: okRaw :: rest) acc =
        (writeData v ++ [encodedLine [69, 78, 68] []], TRes.done acc)) := by
  refine ⟨transactLoop_inquire_missing, transactLoop_inquire_found, ?_⟩
  intro ans k v rest acc h
  rw [transactLoop_inquire_found ans k v (okRaw :: rest) acc h, transactLoop_ok]

/-- Witness for C6 at concrete inputs: an empty answer map makes the
INQUIRE for keyword `X` fail with CAN written, and a one-entry map makes
the transaction write the payload and END and complete on the next OK. -/
theorem transact_inquire_witness :
    transactLoop [] [inqRaw [88]] [] = ([encodedLine [67, 65, 78] []], TRes.missing [88]) ∧
    transactLoop [([88], [1, 2])] [inqRaw [88], okRaw] [] =
      (writeData [1, 2] ++ [encodedLine [69, 78, 68] []], TRes.done []) :=
  ⟨transact_inquire.1 [] [88] [] [] rfl,
   transact_inquire.2.2 [([88], [1, 2])] [88] [1, 2] [] [] rfl⟩

/-- C9: `unescapeParameters` fails with a decode error exactly when the
input contains a `%` not followed by two valid hex digits (including a lone
trailing `%`); `+` is never treated specially on either encode or decode,
so in particular unescaping `+++` gives `+++` unchanged. -/
theorem unescape_malformed_iff :
    (∀ s : List Nat, unescapeParameters s = none ↔ ∃ i, badPercentAt s i) ∧
    unescapeParameters (strB "+++") = some (strB "+++") ∧
    escapeParameters (strB "+++") = strB "+++" :=
  ⟨unescape_none_iff_badPercent, by decide, by decide⟩

/-- Projection form of the loop equation for one handled command. -/
theorem serveLoopCtx_cons {σ : Type} (ctx : ServeCtx σ) (c p : String)
    (rest : List (String × String)) :
    serveLoopCtx ctx ((c, p) :: rest) =
      ((serveLoopCtx (stepCtx ctx c p).1 rest).1,
        (stepCtx ctx c p).2 ++ (serveLoopCtx (stepCtx ctx c p).1 rest).2.1,
        (serveLoopCtx (stepCtx ctx c p).1 rest).2.2) := rfl

/-- The translated Serve loop only ever ends in a read error: the source
has no `return nil` path, so Serve never returns normally. -/
theorem serveExit_readErr {σ : Type} (ctx : ServeCtx σ) (cmds : List (String × String)) :
    (serveLoopCtx ctx cmds).2.2 = ServeExit.readErr := by
  induction cmds generalizing ctx with
  | nil => rfl
  | cons cp rest ih =>
    obtain ⟨c, p⟩ := cp
    rw [serveLoopCtx_cons]
    exact ih (stepCtx ctx c p).1

/-- C3 (amended): on BYE the dispatcher replies OK but the loop is not
left — the source has no return in the BYE case — so serving continues
with the remaining commands, and Serve returns only through a read
failure (`.readErr`, e.g. EOF once the peer closes), never normally. -/
theorem serve_bye_continues {σ : Type} (ctx : ServeCtx σ) (rest : List (String × String)) :
    serveLoopCtx ctx (("BYE", "") :: rest) =
      ((serveLoopCtx ctx rest).1,
        OutLine.line "OK" "" :: (serveLoopCtx ctx rest).2.1,
        (serveLoopCtx ctx rest).2.2) ∧
    (serveLoopCtx ctx (("BYE", "") :: rest)).2.2 = ServeExit.readErr := by
  constructor
  · have hstep : stepCtx ctx "BYE" "" = (ctx, [OutLine.line "OK" ""]) := rfl
    rw [serveLoopCtx_cons, hstep]
    simp
  · exact serveExit_readErr ctx _

/-- C3 counterexample: the blueprint with no handlers, fed BYE and then
NOP: the loop answers OK to the NOP received after the BYE — it attempted
to read further commands — and ends with the read error of the exhausted
stream, not with a normal return, contradicting the claim that reading a
BYE terminates the loop normally. -/
theorem serve_bye_claim_false :
    serveLoopCtx ctxTest [("BYE", ""), ("NOP", "")] =
      (ctxTest, [OutLine.line "OK" "", OutLine.line "OK" ""], ServeExit.readErr) ∧
    (serveLoopCtx ctxTest [("BYE", "")]).2.2 ≠ ServeExit.normal := by
  constructor
  · rfl
  · decide

/-- C4 (amended): for an OPTION command where the blueprint has an option
setter, the parameters split as key/value and the setter reports a
structured error, the dispatcher writes the ERR line carrying that error
followed by an additional OK line for the same command — the source lacks
an early return after `pipe.WriteError` — and the connection continues
serving. -/
theorem option_error_then_ok {σ : Type} (proto : ProtoInfo σ) (st st' : Option σ)
    (setter : Option σ → String → String → Option σ × Option ErrorV)
    (params k v : String) (e : ErrorV) (rest : List (String × String))
    (hso : proto.setOption = some setter)
    (hsp : splitOption params = some (k, v))
    (hset : setter st k v = (st', some e)) :
    serveLoopCtx ⟨proto, st⟩ (("OPTION", params) :: rest) =
      ((serveLoopCtx ⟨proto, st'⟩ rest).1,
        OutLine.errorLine e :: OutLine.line "OK" "" :: (serveLoopCtx ⟨proto, st'⟩ rest).2.1,
        (serveLoopCtx ⟨proto, st'⟩ rest).2.2) := by
  have hstep : stepCtx ⟨proto, st⟩ "OPTION" params =
      (⟨proto, st'⟩, [OutLine.errorLine e, OutLine.line "OK" ""]) := by
    unfold stepCtx
    rw [if_neg (by decide), if_neg (by decide), if_neg (by decide), if_pos rfl]
    unfold optionOut
    simp only [hso, hsp, hset]
  rw [serveLoopCtx_cons, hstep]
  simp

/-- Witness for C4's amended claim: the concrete blueprint whose setter
always reports `testErr`, on `OPTION a=b`, produces the ERR line followed
by the OK line and the loop continues to the end of the stream. -/
theorem option_error_then_ok_witness :
    serveLoopCtx ⟨protoOpt, some ()⟩ [("OPTION", "a=b")] =
      (⟨protoOpt, some ()⟩, [OutLine.errorLine testErr, OutLine.line "OK" ""],
        ServeExit.readErr) :=
  option_error_then_ok protoOpt (some ()) (some ())
    (fun st _ _ => (st, some testErr)) "a=b" "a" "b" testErr [] rfl rfl rfl

/-- C4 counterexample: on that concrete blueprint and command, the
dispatcher's response is the ERR line followed by an OK line — not exactly
the ERR line alone as the claim states. -/
theorem option_exact_err_false :
    (stepCtx ⟨protoOpt, some ()⟩ "OPTION" "a=b").2 =
      [OutLine.errorLine testErr, OutLine.line "OK" ""] ∧
    (stepCtx ⟨protoOpt, some ()⟩ "OPTION" "a=b").2 ≠ [OutLine.errorLine testErr] := by
  constructor
  · rfl
  · decide

/-- C5: on a connection whose blueprint registers no RESET handler, a
RESET command replies OK and replaces the connection state with the zero
value (`none`, Go's nil interface), and the rest of the loop — hence every
handler invoked afterwards — runs from that zero state, independent of any
state `st` mutated before the RESET. -/
theorem reset_zeroes_state {σ : Type} (proto : ProtoInfo σ) (st : Option σ)
    (rest : List (String × String))
    (hnone : lookupS proto.handlers "RESET" = none) :
    serveLoopCtx ⟨proto, st⟩ (("RESET", "") :: rest) =
      ((serveLoopCtx ⟨proto, none⟩ rest).1,
        OutLine.line "OK" "" :: (serveLoopCtx ⟨proto, none⟩ rest).2.1,
        (serveLoopCtx ⟨proto, none⟩ rest).2.2) := by
  have hstep : stepCtx ⟨proto, st⟩ "RESET" "" =
      (⟨proto, none⟩, [OutLine.line "OK" ""]) := by
    unfold stepCtx
    rw [if_neg (by decide), if_neg (by decide), if_pos rfl]
    unfold resetOut
    simp only [hnone]
  rw [serveLoopCtx_cons, hstep]
  simp

/-- Witness for C5: the handler-less blueprint with a non-nil state, on a
single RESET, answers OK and ends with the state reset to `none`. -/
theorem reset_zeroes_state_witness :
    serveLoopCtx ⟨protoTest, some ()⟩ [("RESET", "")] =
      (⟨protoTest, none⟩, [OutLine.line "OK" ""], ServeExit.readErr) :=
  reset_zeroes_state protoTest (some ()) [] rfl

/-- One dispatcher step never changes the blueprint: no branch of the
translated switch writes to the proto value. -/
theorem stepCtx_proto {σ : Type} (ctx : ServeCtx σ) (c p : String) :
    ((stepCtx ctx c p).1).proto = ctx.proto := by
  unfold stepCtx resetOut optionOut
  repeat' split
  all_goals rfl

/-- The Serve loop never changes the blueprint. -/
theorem serveLoop_proto {σ : Type} (ctx : ServeCtx σ) (cmds : List (String × String)) :
    ((serveLoopCtx ctx cmds).1).proto = ctx.proto := by
  induction cmds generalizing ctx with
  | nil => rfl
  | cons cp rest ih =>
    obtain ⟨c, p⟩ := cp
    rw [serveLoopCtx_cons]
    dsimp only
    rw [ih, stepCtx_proto]

/-- C10: over every blueprint, initial state and sequence of handled
commands (RESET included), the dispatcher leaves the blueprint unchanged:
greeting, handler table, help table, state factory and option setter are
all equal to their values before serving. -/
theorem blueprint_immutable {σ : Type} (ctx : ServeCtx σ) (cmds : List (String × String)) :
    ((serveLoopCtx ctx cmds).1).proto.greeting = ctx.proto.greeting ∧
    ((serveLoopCtx ctx cmds).1).proto.handlers = ctx.proto.handlers ∧
    ((serveLoopCtx ctx cmds).1).proto.help = ctx.proto.help ∧
    ((serveLoopCtx ctx cmds).1).proto.getDefaultState = ctx.proto.getDefaultState ∧
    ((serveLoopCtx ctx cmds).1).proto.setOption = ctx.proto.setOption := by
  rw [serveLoop_proto]
  exact ⟨rfl, rfl, rfl, rfl, rfl⟩

end Assuan
